import Mathlib

/-!
Verification of the Pleinchamp fetch-cache-reshape pipeline
(`custom_components/pleinchamp/pleinchamp_api.py` and the condition lookup
of `custom_components/pleinchamp/weather.py`), as a shallow embedding.

Python dicts are modelled as association lists with Python's semantics:
lookup finds the first matching key, and assignment (`upsertA`) updates the
first occurrence in place or appends a fresh key at the end, exactly like
insertion-ordered `dict` assignment.  JSON scalars are modelled by `Val`.
Exceptions are modelled with `Except String`: the reshapers can raise
`KeyError` (uncaught in the source), while the fetchers catch only
`TimeoutError`/`ClientError`/`JSONDecodeError`, which we model as the
network oracle returning `none`.

The Python `datetime`/`zoneinfo` library is modelled by an oracle
`LocOracle : String → LocalDT` standing for
`datetime.fromisoformat(s).astimezone(ZoneInfo("Europe/Paris"))`, exposing
the `.date()`, `.hour` and `.isoformat()` attributes the source reads.
Calendar dates themselves are concrete (`PDate`) with the standard
days-from-civil / civil-from-days arithmetic, so date subtraction and
`date.isoformat()` compute.
-/

deriving instance DecidableEq for Except

set_option synthInstance.maxSize 512

namespace Pleinchamp

/-- A JSON scalar or structured value as delivered by the API. -/
inductive Val where
  | num (n : Int)
  | str (s : String)
deriving DecidableEq, Repr

/-- A JSON object: a Python dict from field names to values. -/
abbrev Jobj := List (String × Val)

/-- Python dict lookup `m[k]` / `m.get(k)`: first matching key. -/
def lookupA {κ β : Type} [DecidableEq κ] : List (κ × β) → κ → Option β
  | [], _ => none
  | (k0, v0) :: rest, k => if k = k0 then some v0 else lookupA rest k

/-- Python dict assignment `m[k] = v`: update the first occurrence of `k`
in place, else append `(k, v)` at the end (insertion order). -/
def upsertA {κ β : Type} [DecidableEq κ] : List (κ × β) → κ → β → List (κ × β)
  | [], k, v => [(k, v)]
  | (k0, v0) :: rest, k, v =>
    if k = k0 then (k0, v) :: rest else (k0, v0) :: upsertA rest k v

/-- `defaultdict`-style access: the stored value, or the given default. -/
def lookupD {κ β : Type} [DecidableEq κ] (m : List (κ × β)) (k : κ) (d : β) : β :=
  (lookupA m k).getD d

/-- Python subscript `entry[k]`: raises `KeyError` when the field is absent. -/
def getField (e : Jobj) (k : String) : Except String Val :=
  match lookupA e k with
  | some v => Except.ok v
  | none => Except.error ("KeyError: " ++ k)

/-- The source calls `.replace`/`fromisoformat` on the field it read; on a
non-string value Python raises there.  Modelled as an error. -/
def asStr (v : Val) : Except String String :=
  match v with
  | Val.str s => Except.ok s
  | _ => Except.error "TypeError: not a str"

/-- A Python `datetime.date`: proleptic Gregorian calendar date. -/
structure PDate where
  year : Int
  month : Nat
  day : Nat
deriving DecidableEq, Repr

/-- Serial day number of a civil date (days-from-civil, floor-division
variant); models the value underlying Python `date` subtraction. -/
def toDay (d : PDate) : Int :=
  let y : Int := if d.month ≤ 2 then d.year - 1 else d.year
  let era : Int := Int.fdiv y 400
  let yoe : Nat := (y - era * 400).toNat
  let mp : Nat := if 2 < d.month then d.month - 3 else d.month + 9
  let doy : Nat := (153 * mp + 2) / 5 + d.day - 1
  let doe : Nat := yoe * 365 + yoe / 4 - yoe / 100 + doy
  era * 146097 + (doe : Int) - 719468

/-- Civil date of a serial day number (civil-from-days); inverse of `toDay`
on canonical dates.  Models Python `date + timedelta(days=n)`. -/
def fromDay (z0 : Int) : PDate :=
  let z : Int := z0 + 719468
  let era : Int := Int.fdiv z 146097
  let doe : Nat := (z - era * 146097).toNat
  let yoe : Nat := (doe - doe / 1460 + doe / 36524 - doe / 146096) / 365
  let y : Int := (yoe : Int) + era * 400
  let doy : Nat := doe - (365 * yoe + yoe / 4 - yoe / 100)
  let mp : Nat := (5 * doy + 2) / 153
  let d : Nat := doy - (153 * mp + 2) / 5 + 1
  let m : Nat := if mp < 10 then mp + 3 else mp - 9
  { year := if m ≤ 2 then y + 1 else y, month := m, day := d }

/-- Python `date + timedelta(days = n)`. -/
def addDays (d : PDate) (n : Int) : PDate :=
  fromDay (toDay d + n)

/-- A date is canonical when the serial-day round trip is the identity;
every date produced by Python's `datetime` library is canonical. -/
def canonB (d : PDate) : Bool :=
  fromDay (toDay d) = d

/-- Left-pad a numeral with zeros, as Python `%02d` / `%04d` formatting. -/
def natPad (w : Nat) (n : Nat) : String :=
  let s := toString n
  if s.length < w then String.mk (List.replicate (w - s.length) '0') ++ s else s

/-- Python `date.isoformat()` / `str(date)`: `YYYY-MM-DD`. -/
def PDate.isoformat (d : PDate) : String :=
  (if d.year < 0 then "-" ++ natPad 4 (-d.year).toNat else natPad 4 d.year.toNat)
    ++ "-" ++ natPad 2 d.month ++ "-" ++ natPad 2 d.day

/-- The attributes the source reads off
`datetime.fromisoformat(s).astimezone(ZoneInfo("Europe/Paris"))`:
the local calendar date, the local hour, and `dt.isoformat()`. -/
structure LocalDT where
  date : PDate
  hour : Nat
  isoLocal : String

/-- Oracle for the Python datetime library: maps the (already
`Z`-normalized) timestamp string to its Europe/Paris local datetime. -/
abbrev LocOracle := String → LocalDT

/-- Python `date_str.replace("Z", "+00:00")`: every occurrence of the
one-character pattern `"Z"` replaced. -/
def replaceZ (s : String) : String :=
  String.mk (s.data.foldr
    (fun c acc => if c = 'Z' then '+' :: '0' :: '0' :: ':' :: '0' :: '0' :: acc else c :: acc)
    [])

/-- `datetime.fromisoformat(date_str.replace("Z", "+00:00")).astimezone(tz)`. -/
def entryLocal (loc : LocOracle) (s : String) : LocalDT :=
  loc (replaceZ s)

/-- The hourly bucket key `f"{dt.date()}-{dt.hour}"`. -/
def hourKey (loc : LocOracle) (s : String) : String :=
  (entryLocal loc s).date.isoformat ++ "-" ++ toString (entryLocal loc s).hour

/-- The daily bucket key `(date_courte - today).days + 1`. -/
def dayIdx (loc : LocOracle) (today : PDate) (s : String) : Int :=
  (toDay (entryLocal loc s).date - toDay today) + 1

/-- A Python `for` loop threading a dict accumulator, where the body can
raise: stops at the first error. -/
def exFold {α β : Type} (f : α → β → Except String α) : α → List β → Except String α
  | acc, [] => Except.ok acc
  | acc, b :: bs =>
    match f acc b with
    | Except.ok a => exFold f a bs
    | Except.error e => Except.error e

/-- Body of the inner entry loop of `reorganiser_par_date`: reads
`entry["date"]` and `entry["value"]`, converts to Paris local time, and
when `index_jour > 0` writes the bucket's `date` field and the metric. -/
def dailyEntryStep (loc : LocOracle) (today : PDate) (metric : String)
    (acc : List (Int × Jobj)) (e : Jobj) : Except String (List (Int × Jobj)) := do
  let dv ← getField e "date"
  let vv ← getField e "value"
  let ds ← asStr dv
  let d := (entryLocal loc ds).date
  let idx : Int := (toDay d - toDay today) + 1
  if 0 < idx then
    let b0 := lookupD acc idx []
    let b1 := upsertA b0 "date" (Val.str d.isoformat)
    let b2 := upsertA b1 metric vv
    pure (upsertA acc idx b2)
  else
    pure acc

/-- Body of the outer metric loop of `reorganiser_par_date`: skips the
sentinel `nbMetrics`, else runs the entry loop. -/
def dailyMetricStep (loc : LocOracle) (today : PDate)
    (acc : List (Int × Jobj)) (me : String × List Jobj) :
    Except String (List (Int × Jobj)) :=
  if me.1 = "nbMetrics" then Except.ok acc
  else exFold (dailyEntryStep loc today me.1) acc me.2

/-- `Pleinchamp.reorganiser_par_date`: pivots metric-indexed daily series
into day-offset-indexed buckets. -/
def reorganiser_par_date (loc : LocOracle) (today : PDate)
    (data : List (String × List Jobj)) : Except String (List (Int × Jobj)) :=
  exFold (dailyMetricStep loc today) [] data

/-- Body of the inner entry loop of `reorganiser_par_heure`: writes the
bucket's `datetime` field (normalized timestamp) and the metric value. -/
def hourlyEntryStep (loc : LocOracle) (metric : String)
    (acc : List (String × Jobj)) (e : Jobj) : Except String (List (String × Jobj)) := do
  let dv ← getField e "date"
  let vv ← getField e "value"
  let ds ← asStr dv
  let key := hourKey loc ds
  let b0 := lookupD acc key []
  let b1 := upsertA b0 "datetime" (Val.str (replaceZ ds))
  let b2 := upsertA b1 metric vv
  pure (upsertA acc key b2)

/-- Outer metric loop of `reorganiser_par_heure` (no sentinel skip here:
the skip happens while merging the six days in the fetcher). -/
def hourlyMetricStep (loc : LocOracle)
    (acc : List (String × Jobj)) (me : String × List Jobj) :
    Except String (List (String × Jobj)) :=
  exFold (hourlyEntryStep loc me.1) acc me.2

/-- `Pleinchamp.reorganiser_par_heure`: pivots metric-indexed hourly series
into `"{date}-{hour}"`-keyed buckets. -/
def reorganiser_par_heure (loc : LocOracle)
    (data : List (String × List Jobj)) : Except String (List (String × Jobj)) :=
  exFold (hourlyMetricStep loc) [] data

/-- Body of the loop of `reorganiser` (current conditions): skips
`nbMetrics`; on `airTemperature` also injects the local `datetime`;
then stores `entry["value"]` under the metric name. -/
def currentStep (loc : LocOracle)
    (acc : List (String × Val)) (me : String × Jobj) :
    Except String (List (String × Val)) :=
  if me.1 = "nbMetrics" then Except.ok acc
  else do
    let acc1 ←
      if me.1 = "airTemperature" then do
        let dv ← getField me.2 "date"
        let ds ← asStr dv
        pure (upsertA acc "datetime" (Val.str (entryLocal loc ds).isoLocal))
      else pure acc
    let vv ← getField me.2 "value"
    pure (upsertA acc1 me.1 vv)

/-- `Pleinchamp.reorganiser`: flattens the current-conditions payload. -/
def reorganiser (loc : LocOracle)
    (data : List (String × Jobj)) : Except String (List (String × Val)) :=
  exFold (currentStep loc) [] data

/-- One metric of one fetched day merged into `combined_data`:
`combined_data.setdefault(metric, []).extend(entries)`, skipping the
sentinel. -/
def mergeDayStep (acc : List (String × List Jobj)) (me : String × List Jobj) :
    List (String × List Jobj) :=
  if me.1 = "nbMetrics" then acc
  else upsertA acc me.1 (lookupD acc me.1 [] ++ me.2)

/-- The six-day fan-out merge loop of `fetch_hourly_forecast_datas`: a
failed day (`none`) is skipped (`continue`), a fetched day has each
non-sentinel metric's entries appended to `combined_data`. -/
def combineDays (days : List (Option (List (String × List Jobj)))) :
    List (String × List Jobj) :=
  days.foldl
    (fun acc od =>
      match od with
      | none => acc
      | some dayData => dayData.foldl mergeDayStep acc)
    []

/-- `DEFAULT_CACHE_TIMEOUT` from `const.py` (seconds). -/
def DEFAULT_CACHE_TIMEOUT : Int := 1770

/-- The mutable per-kind cache fields of the `Pleinchamp` object. -/
structure PState where
  lastDaily : Option Int
  cachedDaily : Option (List (Int × Jobj))
  lastHourly : Option Int
  cachedHourly : Option (List (String × Jobj))
  lastCurrent : Option Int
  cachedCurrent : Option (List (String × Val))
deriving DecidableEq, Repr

/-- The fresh-cache test `if cached and last:` followed by
`(now - last).total_seconds() < DEFAULT_CACHE_TIMEOUT`: Python truthiness
makes an empty cached dict fail the first test. -/
def cacheFresh {β : Type} (cached : Option (List β)) (lastT : Option Int)
    (now : Int) : Bool :=
  match cached, lastT with
  | some c, some t => !c.isEmpty && decide (now - t < DEFAULT_CACHE_TIMEOUT)
  | _, _ => false

/-- The try-block of `fetch_daily_forecast_datas`: the network oracle
`net` is `none` on the caught failures (timeout/transport/JSON), `some raw`
on a parsed body.  A `KeyError` from the reshaper is NOT caught and
propagates.  The `Bool` records that the network was accessed. -/
def fetchDailyNet (loc : LocOracle) (today : PDate) (now : Int)
    (net : Option (List (String × List Jobj))) (st : PState) :
    Except String (List (Int × Jobj) × Bool × PState) :=
  match net with
  | none => Except.ok ([], true, st)
  | some raw => do
    let data ← reorganiser_par_date loc today raw
    pure (data, true,
      { st with lastDaily := some now, cachedDaily := some data })

/-- `Pleinchamp.fetch_daily_forecast_datas`. -/
def fetch_daily_forecast_datas (loc : LocOracle) (today : PDate) (now : Int)
    (net : Option (List (String × List Jobj))) (st : PState) :
    Except String (List (Int × Jobj) × Bool × PState) :=
  match st.cachedDaily, st.lastDaily with
  | some c, some t =>
    if !c.isEmpty && decide (now - t < DEFAULT_CACHE_TIMEOUT) then
      Except.ok (c, false, st)
    else fetchDailyNet loc today now net st
  | some _, none => fetchDailyNet loc today now net st
  | none, _ => fetchDailyNet loc today now net st

/-- The fan-out body of `fetch_hourly_forecast_datas`: merge the six days
(each failed day skipped), pivot, then unconditionally overwrite the cache
entry and timestamp. -/
def fetchHourlyNet (loc : LocOracle) (now : Int)
    (days : List (Option (List (String × List Jobj)))) (st : PState) :
    Except String (List (String × Jobj) × Bool × PState) := do
  let data ← reorganiser_par_heure loc (combineDays days)
  pure (data, true,
    { st with lastHourly := some now, cachedHourly := some data })

/-- `Pleinchamp.fetch_hourly_forecast_datas`. -/
def fetch_hourly_forecast_datas (loc : LocOracle) (now : Int)
    (days : List (Option (List (String × List Jobj)))) (st : PState) :
    Except String (List (String × Jobj) × Bool × PState) :=
  match st.cachedHourly, st.lastHourly with
  | some c, some t =>
    if !c.isEmpty && decide (now - t < DEFAULT_CACHE_TIMEOUT) then
      Except.ok (c, false, st)
    else fetchHourlyNet loc now days st
  | some _, none => fetchHourlyNet loc now days st
  | none, _ => fetchHourlyNet loc now days st

/-- The try-block of `fetch_current_forecast_datas`. -/
def fetchCurrentNet (loc : LocOracle) (now : Int)
    (net : Option (List (String × Jobj))) (st : PState) :
    Except String (List (String × Val) × Bool × PState) :=
  match net with
  | none => Except.ok ([], true, st)
  | some raw => do
    let data ← reorganiser loc raw
    pure (data, true,
      { st with lastCurrent := some now, cachedCurrent := some data })

/-- `Pleinchamp.fetch_current_forecast_datas`. -/
def fetch_current_forecast_datas (loc : LocOracle) (now : Int)
    (net : Option (List (String × Jobj))) (st : PState) :
    Except String (List (String × Val) × Bool × PState) :=
  match st.cachedCurrent, st.lastCurrent with
  | some c, some t =>
    if !c.isEmpty && decide (now - t < DEFAULT_CACHE_TIMEOUT) then
      Except.ok (c, false, st)
    else fetchCurrentNet loc now net st
  | some _, none => fetchCurrentNet loc now net st
  | none, _ => fetchCurrentNet loc now net st

/-- `CONDITION_MAP` from `weather.py`, in source order; the labels are the
Home Assistant condition constants' string values. -/
def CONDITION_MAP : List (Int × String) :=
  [(1, "sunny"), (101, "clear-night"),
   (2, "partlycloudy"), (102, "partlycloudy"),
   (3, "partlycloudy"), (103, "partlycloudy"),
   (4, "cloudy"), (104, "cloudy"),
   (5, "rainy"), (105, "rainy"),
   (6, "snowy-rainy"), (106, "snowy-rainy"),
   (7, "snowy"), (107, "snowy"),
   (8, "rainy"), (108, "rainy"),
   (9, "snowy"), (109, "snowy"),
   (10, "snowy-rainy"), (110, "snowy-rainy"),
   (11, "fog"), (111, "fog"),
   (12, "fog"), (112, "fog"),
   (13, "rainy"), (113, "rainy"),
   (14, "lightning"), (114, "lightning"),
   (15, "rainy"), (115, "rainy"),
   (16, "exceptional"), (116, "exceptional")]

/-- `PleinchampWeather.condition`:
`CONDITION_MAP.get(self._current.get("weatherCode"), code)` — a mapped
label for known codes, the raw code passed through otherwise, `None` when
`weatherCode` is absent. -/
def condition (cur : List (String × Val)) : Option Val :=
  match lookupA cur "weatherCode" with
  | none => none
  | some v =>
    match v with
    | Val.num n =>
      match lookupA CONDITION_MAP n with
      | some lbl => some (Val.str lbl)
      | none => some v
    | _ => some v

/-- A record is well-formed when it has a string `date` and some `value`,
the fields the reshapers subscript. -/
def wfEntryB (e : Jobj) : Bool :=
  (match lookupA e "date" with
   | some (Val.str _) => true
   | _ => false)
  && (lookupA e "value").isSome

/-- No metric carries the given (reserved) name. -/
def noMetricB (data : List (String × List Jobj)) (bad : String) : Bool :=
  data.all (fun me => me.1 ≠ bad)

/-- Every local date the oracle assigns to a record of the input is a
canonical calendar date (as Python dates always are). -/
def datesCanonB (loc : LocOracle) (data : List (String × List Jobj)) : Bool :=
  data.all (fun me => me.2.all (fun e =>
    match lookupA e "date" with
    | some (Val.str s) => canonB (entryLocal loc s).date
    | _ => true))

/-- Well-formedness of one current-conditions record: it has a `value`,
and if the metric is `airTemperature` also a string `date` — the fields
`currentStep` subscripts. -/
def wfCurEntryB (m : String) (e : Jobj) : Bool :=
  (lookupA e "value").isSome
  && (decide (m ≠ "airTemperature")
      || (match lookupA e "date" with
          | some (Val.str _) => true
          | _ => false))

/-- The per-bucket "last normalized timestamp" observer: folds over the
input in iteration order, remembering for each hourly bucket key the
normalized (`Z` → `+00:00`) timestamp of the last record mapping there. -/
def lastNormUpd (loc : LocOracle) (L : String → Option String) (e : Jobj) :
    String → Option String :=
  match lookupA e "date" with
  | some (Val.str s) =>
    fun k => if hourKey loc s = k then some (replaceZ s) else L k
  | _ => L

/-- Per-bucket last normalized timestamp of a whole metric-indexed input. -/
def lastNorm (loc : LocOracle) (data : List (String × List Jobj)) :
    String → Option String :=
  data.foldl (fun L me => me.2.foldl (lastNormUpd loc) L) (fun _ => none)

/-- A throwaway oracle for closed instances. -/
def loc0 : LocOracle := fun _ => ⟨⟨1970, 1, 1⟩, 0, ""⟩

/-- No bucket of the daily pivot ever holds the sentinel field. -/
def dailyNoSent (res : List (Int × Jobj)) : Prop :=
  ∀ k b, lookupA res k = some b → lookupA b "nbMetrics" = none

/-- Every bucket key of the daily pivot is positive and its `date` field is
the ISO string of `today + (k - 1)` days. -/
def dailyDateInv (today : PDate) (res : List (Int × Jobj)) : Prop :=
  ∀ k b, lookupA res k = some b →
    0 < k ∧ lookupA b "date"
      = some (Val.str (PDate.isoformat (fromDay (toDay today + (k - 1)))))

/-- The bucket keyed `k` exists and holds the field `m`. -/
def bucketHasD (res : List (Int × Jobj)) (k : Int) (m : String) : Prop :=
  ∃ b, lookupA res k = some b ∧ (lookupA b m).isSome = true

/-- The bucket keyed `k` exists and holds the field `m` (hourly pivot). -/
def bucketHasH (res : List (String × Jobj)) (k : String) (m : String) : Prop :=
  ∃ b, lookupA res k = some b ∧ (lookupA b m).isSome = true

/-- The `datetime` field of every existing bucket equals the per-bucket
last normalized timestamp of the input processed so far. -/
def hourlyDT (L : String → Option String) (res : List (String × Jobj)) : Prop :=
  ∀ k b, lookupA res k = some b → lookupA b "datetime" = (L k).map Val.str

/-- Oracle modelling Europe/Paris (UTC+01:00 in January 2025) on the
timestamps of the concrete examples. -/
def locJan : LocOracle := fun s =>
  if s = "2025-01-01T00:00:00+00:00" then ⟨⟨2025, 1, 1⟩, 1, "2025-01-01T01:00:00+01:00"⟩
  else if s = "2025-01-01T10:00:00+00:00" then ⟨⟨2025, 1, 1⟩, 11, "2025-01-01T11:00:00+01:00"⟩
  else if s = "2025-01-01T10:30:00+00:00" then ⟨⟨2025, 1, 1⟩, 11, "2025-01-01T11:30:00+01:00"⟩
  else ⟨⟨1970, 1, 1⟩, 0, ""⟩

/-- The spec's concrete daily-pivot example input. -/
def exDaily : List (String × List Jobj) :=
  [("maxAirTemperature", [[("date", Val.str "2025-01-01T00:00:00Z"), ("value", Val.num 10)]])]

/-- A partially malformed input: the second metric's record lacks `value`. -/
def exMalformed : List (String × List Jobj) :=
  [("maxAirTemperature", [[("date", Val.str "2025-01-01T00:00:00Z"), ("value", Val.num 10)]]),
   ("relativeHumidity", [[("date", Val.str "2025-01-01T00:00:00Z")]])]

/-- An input whose metric is literally named `date`. -/
def exDateMetric : List (String × List Jobj) :=
  [("date", [[("date", Val.str "2025-01-01T00:00:00Z"), ("value", Val.num 99)]])]

/-- Two metrics whose records fall in the same Paris hour with distinct
timestamps. -/
def exHourly : List (String × List Jobj) :=
  [("airTemperature", [[("date", Val.str "2025-01-01T10:00:00Z"), ("value", Val.num 1)]]),
   ("windSpeedAt2m", [[("date", Val.str "2025-01-01T10:30:00Z"), ("value", Val.num 2)]])]

/-- A fresh `Pleinchamp` object: every cache slot unset. -/
def stEmpty : PState := ⟨none, none, none, none, none, none⟩

/-- A state whose daily cache holds an EMPTY payload fetched at time 0. -/
def stCachedEmptyDaily : PState :=
  { lastDaily := some 0, cachedDaily := some [], lastHourly := none,
    cachedHourly := none, lastCurrent := none, cachedCurrent := none }

/-- A state with a stale non-empty hourly entry fetched at time 0. -/
def stStaleHourly : PState :=
  { lastDaily := none, cachedDaily := none, lastHourly := some 0,
    cachedHourly := some [("2025-01-01-11", [("datetime", Val.str "old")])],
    lastCurrent := none, cachedCurrent := none }

/-- One fetched day's payload for the fan-out example. -/
def exDay : List (String × List Jobj) :=
  [("airTemperature", [[("date", Val.str "2025-01-01T10:00:00Z"), ("value", Val.num 1)]])]

/-- A six-day fan-out in which only day 4 (index 3) succeeds. -/
def exDays : List (Option (List (String × List Jobj))) :=
  [none, none, none, some exDay, none, none]

/-! ### Association-list lemmas -/

theorem lookupA_upsert_self {κ β : Type} [DecidableEq κ]
    (m : List (κ × β)) (k : κ) (v : β) :
    lookupA (upsertA m k v) k = some v := by
  induction m with
  | nil => simp [upsertA, lookupA]
  | cons p rest ih =>
    obtain ⟨k0, v0⟩ := p
    by_cases h : k = k0
    · simp [upsertA, h, lookupA]
    · simp [upsertA, h, lookupA, ih]

theorem lookupA_upsert_ne {κ β : Type} [DecidableEq κ]
    (m : List (κ × β)) (k k' : κ) (v : β) (h : k' ≠ k) :
    lookupA (upsertA m k v) k' = lookupA m k' := by
  induction m with
  | nil => simp [upsertA, lookupA, h]
  | cons p rest ih =>
    obtain ⟨k0, v0⟩ := p
    by_cases hk : k = k0
    · subst hk
      simp [upsertA, lookupA, h]
    · by_cases hk' : k' = k0
      · simp [upsertA, hk, lookupA, hk']
      · simp [upsertA, hk, lookupA, hk', ih]

theorem lookupA_upsert_isSome {κ β : Type} [DecidableEq κ]
    (m : List (κ × β)) (k j : κ) (v : β)
    (h : (lookupA m j).isSome = true) :
    (lookupA (upsertA m k v) j).isSome = true := by
  by_cases hj : j = k
  · subst hj
    simp [lookupA_upsert_self]
  · rwa [lookupA_upsert_ne m k j v hj]

theorem upsertA_keys {κ β : Type} [DecidableEq κ] {p : κ → Prop} :
    ∀ (m : List (κ × β)) (k : κ) (v : β), (∀ q ∈ m, p q.1) → p k →
      ∀ q ∈ upsertA m k v, p q.1 := by
  intro m
  induction m with
  | nil =>
    intro k v _ hk q hq
    simp [upsertA] at hq
    simp [hq, hk]
  | cons hd rest ih =>
    intro k v hm hk q hq
    obtain ⟨k0, v0⟩ := hd
    by_cases h : k = k0
    · simp [upsertA, h] at hq
      rcases hq with hq | hq
      · simpa [hq] using hm (k0, v0) (by simp)
      · exact hm q (by simp [hq])
    · simp [upsertA, h] at hq
      rcases hq with hq | hq
      · simpa [hq] using hm (k0, v0) (by simp)
      · exact ih k v (fun q' hq' => hm q' (by simp [hq'])) hk q hq

/-! ### Loop lemmas -/

theorem exFold_ok_cons {α β : Type} {f : α → β → Except String α}
    {acc : α} {x : β} {xs : List β} {r : α}
    (h : exFold f acc (x :: xs) = Except.ok r) :
    ∃ a, f acc x = Except.ok a ∧ exFold f a xs = Except.ok r := by
  unfold exFold at h
  cases hf : f acc x with
  | ok a =>
    rw [hf] at h
    exact ⟨a, rfl, h⟩
  | error e =>
    rw [hf] at h
    simp at h

theorem exFold_inv {α β : Type} {f : α → β → Except String α} {P : α → Prop} :
    ∀ (l : List β) (acc r : α),
      (∀ a b r', b ∈ l → f a b = Except.ok r' → P a → P r') →
      exFold f acc l = Except.ok r → P acc → P r := by
  intro l
  induction l with
  | nil =>
    intro acc r _ h hp
    unfold exFold at h
    injection h with h
    exact h ▸ hp
  | cons x xs ih =>
    intro acc r hpres h hp
    obtain ⟨a, hx, hrest⟩ := exFold_ok_cons h
    exact ih a r (fun a' b r' hb => hpres a' b r' (List.mem_cons_of_mem _ hb)) hrest
      (hpres acc x a (List.mem_cons_self _ _) hx hp)

theorem exFold_reach {α β : Type} {f : α → β → Except String α} {P : α → Prop} {x : β} :
    ∀ (l : List β) (acc r : α),
      (∀ a b r', b ∈ l → f a b = Except.ok r' → P a → P r') →
      (∀ a r', f a x = Except.ok r' → P r') →
      x ∈ l → exFold f acc l = Except.ok r → P r := by
  intro l
  induction l with
  | nil =>
    intro acc r _ _ hx
    simp at hx
  | cons y ys ih =>
    intro acc r hpres hest hx h
    obtain ⟨a, hy, hrest⟩ := exFold_ok_cons h
    rcases List.mem_cons.mp hx with hxy | hxys
    · subst hxy
      exact exFold_inv ys a r
        (fun a' b r' hb => hpres a' b r' (List.mem_cons_of_mem _ hb)) hrest
        (hest acc a hy)
    · exact ih a r (fun a' b r' hb => hpres a' b r' (List.mem_cons_of_mem _ hb))
        hest hxys hrest

theorem foldl_inv {α β : Type} {f : α → β → α} {P : α → Prop} :
    ∀ (l : List β) (acc : α),
      (∀ a b, b ∈ l → P a → P (f a b)) → P acc → P (l.foldl f acc) := by
  intro l
  induction l with
  | nil =>
    intro acc _ hp
    simpa using hp
  | cons x xs ih =>
    intro acc hpres hp
    simp only [List.foldl_cons]
    exact ih (f acc x)
      (fun a b hb => hpres a b (List.mem_cons_of_mem _ hb))
      (hpres acc x (List.mem_cons_self _ _) hp)

theorem foldl_reach {α β : Type} {f : α → β → α} {P : α → Prop} {x : β} :
    ∀ (l : List β) (acc : α),
      (∀ a b, b ∈ l → P a → P (f a b)) →
      (∀ a, P (f a x)) → x ∈ l → P (l.foldl f acc) := by
  intro l
  induction l with
  | nil =>
    intro acc _ _ hx
    simp at hx
  | cons y ys ih =>
    intro acc hpres hest hx
    simp only [List.foldl_cons]
    rcases List.mem_cons.mp hx with hxy | hxys
    · subst hxy
      exact foldl_inv ys (f acc x)
        (fun a b hb => hpres a b (List.mem_cons_of_mem _ hb)) (hest acc)
    · exact ih (f acc y) (fun a b hb => hpres a b (List.mem_cons_of_mem _ hb))
        hest hxys

/-! ### Daily pivot lemmas -/

/-- Inversion of one iteration of the daily entry loop. -/
theorem dailyEntryStep_ok {loc : LocOracle} {today : PDate} {metric : String}
    {acc : List (Int × Jobj)} {e : Jobj} {r : List (Int × Jobj)}
    (h : dailyEntryStep loc today metric acc e = Except.ok r) :
    ∃ s v, lookupA e "date" = some (Val.str s) ∧ lookupA e "value" = some v ∧
      ((0 < dayIdx loc today s ∧
        r = upsertA acc (dayIdx loc today s)
          (upsertA (upsertA (lookupD acc (dayIdx loc today s) []) "date"
            (Val.str (entryLocal loc s).date.isoformat)) metric v)) ∨
       (dayIdx loc today s ≤ 0 ∧ r = acc)) := by
  unfold dailyEntryStep at h
  cases hd : lookupA e "date" with
  | none => simp [getField, hd, Except.bind, bind] at h
  | some dv =>
    cases dv with
    | num n =>
      cases hv : lookupA e "value" with
      | none => simp [getField, hd, asStr, hv, Except.bind, bind] at h
      | some v => simp [getField, hd, asStr, hv, Except.bind, bind] at h
    | str s =>
      cases hv : lookupA e "value" with
      | none => simp [getField, hd, asStr, hv, Except.bind, bind] at h
      | some v =>
        simp only [getField, hd, hv, asStr, Except.bind, bind, pure, Except.pure] at h
        refine ⟨s, v, rfl, rfl, ?_⟩
        by_cases hidx : 0 < (toDay (entryLocal loc s).date - toDay today) + 1
        · rw [if_pos hidx] at h
          injection h with h
          exact Or.inl ⟨hidx, h.symm⟩
        · rw [if_neg hidx] at h
          injection h with h
          refine Or.inr ⟨?_, h.symm⟩
          show (toDay (entryLocal loc s).date - toDay today) + 1 ≤ 0
          omega

theorem dailyNoSent_step {loc : LocOracle} {today : PDate} {metric : String}
    {acc : List (Int × Jobj)} {e : Jobj} {r : List (Int × Jobj)}
    (hm : metric ≠ "nbMetrics")
    (h : dailyEntryStep loc today metric acc e = Except.ok r)
    (hin : dailyNoSent acc) : dailyNoSent r := by
  obtain ⟨s, v, hd, hv, hcase⟩ := dailyEntryStep_ok h
  rcases hcase with ⟨hidx, rfl⟩ | ⟨_, rfl⟩
  · intro k b hb
    by_cases hk : k = dayIdx loc today s
    · subst hk
      rw [lookupA_upsert_self] at hb
      injection hb with hb
      subst hb
      rw [lookupA_upsert_ne _ _ _ _ (fun hh => hm hh.symm)]
      rw [lookupA_upsert_ne _ _ _ _ (by simp)]
      cases hacc : lookupA acc (dayIdx loc today s) with
      | none => simp [lookupD, hacc, lookupA]
      | some b' => simpa [lookupD, hacc] using hin _ _ hacc
    · rw [lookupA_upsert_ne _ _ _ _ hk] at hb
      exact hin _ _ hb
  · exact hin

theorem dailyDateInv_step {loc : LocOracle} {today : PDate} {metric : String}
    {acc : List (Int × Jobj)} {e : Jobj} {r : List (Int × Jobj)}
    (hm : metric ≠ "date")
    (hcan : ∀ s, lookupA e "date" = some (Val.str s) →
      canonB (entryLocal loc s).date = true)
    (h : dailyEntryStep loc today metric acc e = Except.ok r)
    (hin : dailyDateInv today acc) : dailyDateInv today r := by
  obtain ⟨s, v, hd, hv, hcase⟩ := dailyEntryStep_ok h
  rcases hcase with ⟨hidx, rfl⟩ | ⟨_, rfl⟩
  · intro k b hb
    by_cases hk : k = dayIdx loc today s
    · subst hk
      rw [lookupA_upsert_self] at hb
      injection hb with hb
      subst hb
      refine ⟨hidx, ?_⟩
      rw [lookupA_upsert_ne _ _ _ _ (fun hh => hm hh.symm)]
      rw [lookupA_upsert_self]
      have hc := hcan s hd
      simp only [canonB, decide_eq_true_eq] at hc
      have hidz : dayIdx loc today s
          = (toDay (entryLocal loc s).date - toDay today) + 1 := rfl
      have hX : toDay today + (dayIdx loc today s - 1)
          = toDay (entryLocal loc s).date := by omega
      rw [hX, hc]
    · rw [lookupA_upsert_ne _ _ _ _ hk] at hb
      exact hin _ _ hb
  · exact hin

theorem dailyNoSent_mstep {loc : LocOracle} {today : PDate}
    {acc : List (Int × Jobj)} {me : String × List Jobj} {r : List (Int × Jobj)}
    (h : dailyMetricStep loc today acc me = Except.ok r)
    (hin : dailyNoSent acc) : dailyNoSent r := by
  unfold dailyMetricStep at h
  by_cases hm : me.1 = "nbMetrics"
  · rw [if_pos hm] at h
    injection h with h
    exact h ▸ hin
  · rw [if_neg hm] at h
    exact exFold_inv me.2 acc r (fun a b r' _ hstep hp => dailyNoSent_step hm hstep hp)
      h hin

theorem dailyDateInv_mstep {loc : LocOracle} {today : PDate}
    {acc : List (Int × Jobj)} {me : String × List Jobj} {r : List (Int × Jobj)}
    (hm : me.1 ≠ "date")
    (hcan : ∀ e ∈ me.2, ∀ s, lookupA e "date" = some (Val.str s) →
      canonB (entryLocal loc s).date = true)
    (h : dailyMetricStep loc today acc me = Except.ok r)
    (hin : dailyDateInv today acc) : dailyDateInv today r := by
  unfold dailyMetricStep at h
  by_cases hs : me.1 = "nbMetrics"
  · rw [if_pos hs] at h
    injection h with h
    exact h ▸ hin
  · rw [if_neg hs] at h
    exact exFold_inv me.2 acc r
      (fun a b r' hb hstep hp => dailyDateInv_step hm (hcan b hb) hstep hp) h hin

theorem noMetricB_mem {data : List (String × List Jobj)} {bad : String}
    {me : String × List Jobj}
    (h : noMetricB data bad = true) (hme : me ∈ data) : me.1 ≠ bad := by
  simp only [noMetricB, List.all_eq_true, decide_eq_true_eq] at h
  exact h me hme

theorem datesCanonB_mem {loc : LocOracle} {data : List (String × List Jobj)}
    {me : String × List Jobj} {e : Jobj} {s : String}
    (h : datesCanonB loc data = true) (hme : me ∈ data) (he : e ∈ me.2)
    (hd : lookupA e "date" = some (Val.str s)) :
    canonB (entryLocal loc s).date = true := by
  simp only [datesCanonB, List.all_eq_true] at h
  have hh := h me hme e he
  rw [hd] at hh
  exact hh

/-- The daily pivot never emits the sentinel inside any bucket. -/
theorem reorganiser_par_date_noSent {loc : LocOracle} {today : PDate}
    {data : List (String × List Jobj)} {res : List (Int × Jobj)}
    (h : reorganiser_par_date loc today data = Except.ok res) : dailyNoSent res := by
  unfold reorganiser_par_date at h
  refine exFold_inv data [] res (fun a me r' _ hstep hp => dailyNoSent_mstep hstep hp)
    h ?_
  intro k b hb
  simp [lookupA] at hb

/-- The daily pivot's bucket keys are positive and determine the `date`
field, provided no metric is named `date` and local dates are canonical. -/
theorem reorganiser_par_date_dateInv {loc : LocOracle} {today : PDate}
    {data : List (String × List Jobj)} {res : List (Int × Jobj)}
    (hnd : noMetricB data "date" = true)
    (hcan : datesCanonB loc data = true)
    (h : reorganiser_par_date loc today data = Except.ok res) :
    dailyDateInv today res := by
  unfold reorganiser_par_date at h
  refine exFold_inv data [] res
    (fun a me r' hme hstep hp => dailyDateInv_mstep (noMetricB_mem hnd hme)
      (fun e he s hd => datesCanonB_mem hcan hme he hd) hstep hp) h ?_
  intro k b hb
  simp [lookupA] at hb

theorem dailyEntryStep_mono {loc : LocOracle} {today : PDate} {metric : String}
    {acc : List (Int × Jobj)} {e : Jobj} {r : List (Int × Jobj)} {k : Int} {m : String}
    (h : dailyEntryStep loc today metric acc e = Except.ok r)
    (hp : bucketHasD acc k m) : bucketHasD r k m := by
  obtain ⟨s, v, hd, hv, hcase⟩ := dailyEntryStep_ok h
  rcases hcase with ⟨hidx, rfl⟩ | ⟨_, rfl⟩
  · obtain ⟨b, hb, hbm⟩ := hp
    by_cases hk : k = dayIdx loc today s
    · subst hk
      refine ⟨_, lookupA_upsert_self _ _ _, ?_⟩
      have hb0 : lookupD acc (dayIdx loc today s) [] = b := by simp [lookupD, hb]
      rw [hb0]
      exact lookupA_upsert_isSome _ _ _ _ (lookupA_upsert_isSome _ _ _ _ hbm)
    · exact ⟨b, by rw [lookupA_upsert_ne _ _ _ _ hk]; exact hb, hbm⟩
  · exact hp

theorem dailyEntryStep_self {loc : LocOracle} {today : PDate} {metric : String}
    {acc : List (Int × Jobj)} {e : Jobj} {r : List (Int × Jobj)} {s : String}
    (hd : lookupA e "date" = some (Val.str s))
    (hidx : 0 < dayIdx loc today s)
    (h : dailyEntryStep loc today metric acc e = Except.ok r) :
    bucketHasD r (dayIdx loc today s) metric := by
  obtain ⟨s', v, hd', hv, hcase⟩ := dailyEntryStep_ok h
  rw [hd] at hd'
  have hss : s = s' := by
    injection hd' with hd''
    injection hd''
  subst hss
  rcases hcase with ⟨_, rfl⟩ | ⟨hle, _⟩
  · refine ⟨_, lookupA_upsert_self _ _ _, ?_⟩
    rw [lookupA_upsert_self]
    rfl
  · omega

theorem dailyMetricStep_mono {loc : LocOracle} {today : PDate}
    {acc : List (Int × Jobj)} {me : String × List Jobj} {r : List (Int × Jobj)}
    {k : Int} {m : String}
    (h : dailyMetricStep loc today acc me = Except.ok r)
    (hp : bucketHasD acc k m) : bucketHasD r k m := by
  unfold dailyMetricStep at h
  by_cases hs : me.1 = "nbMetrics"
  · rw [if_pos hs] at h
    injection h with h
    exact h ▸ hp
  · rw [if_neg hs] at h
    exact exFold_inv me.2 acc r (fun a b r' _ hstep hq => dailyEntryStep_mono hstep hq)
      h hp

/-- Every well-dated entry of a non-sentinel metric with positive day
offset ends up with its metric present in the bucket at its offset. -/
theorem reorganiser_par_date_presence {loc : LocOracle} {today : PDate}
    {data : List (String × List Jobj)} {res : List (Int × Jobj)}
    {m : String} {es : List Jobj} {e : Jobj} {s : String}
    (h : reorganiser_par_date loc today data = Except.ok res)
    (hmem : (m, es) ∈ data) (hm : m ≠ "nbMetrics") (he : e ∈ es)
    (hd : lookupA e "date" = some (Val.str s))
    (hidx : 0 < dayIdx loc today s) :
    bucketHasD res (dayIdx loc today s) m := by
  unfold reorganiser_par_date at h
  refine exFold_reach (x := (m, es)) data [] res
    (fun a me r' _ hstep hp => dailyMetricStep_mono hstep hp)
    (fun a r' hstep => ?_) hmem h
  unfold dailyMetricStep at hstep
  rw [if_neg hm] at hstep
  exact exFold_reach (f := dailyEntryStep loc today m) (x := e) es a r'
    (fun a' b r'' _ hst hp => dailyEntryStep_mono hst hp)
    (fun a' r'' hst => dailyEntryStep_self hd hidx hst) he hstep

/-! ### Hourly pivot lemmas -/

/-- Inversion of one iteration of the hourly entry loop. -/
theorem hourlyEntryStep_ok {loc : LocOracle} {metric : String}
    {acc : List (String × Jobj)} {e : Jobj} {r : List (String × Jobj)}
    (h : hourlyEntryStep loc metric acc e = Except.ok r) :
    ∃ s v, lookupA e "date" = some (Val.str s) ∧ lookupA e "value" = some v ∧
      r = upsertA acc (hourKey loc s)
        (upsertA (upsertA (lookupD acc (hourKey loc s) []) "datetime"
          (Val.str (replaceZ s))) metric v) := by
  unfold hourlyEntryStep at h
  cases hd : lookupA e "date" with
  | none => simp [getField, hd, Except.bind, bind] at h
  | some dv =>
    cases dv with
    | num n =>
      cases hv : lookupA e "value" with
      | none => simp [getField, hd, asStr, hv, Except.bind, bind] at h
      | some v => simp [getField, hd, asStr, hv, Except.bind, bind] at h
    | str s =>
      cases hv : lookupA e "value" with
      | none => simp [getField, hd, asStr, hv, Except.bind, bind] at h
      | some v =>
        simp only [getField, hd, hv, asStr, Except.bind, bind, pure, Except.pure] at h
        injection h with h
        exact ⟨s, v, rfl, rfl, h.symm⟩

theorem hourlyEntryStep_mono {loc : LocOracle} {metric : String}
    {acc : List (String × Jobj)} {e : Jobj} {r : List (String × Jobj)}
    {k : String} {m : String}
    (h : hourlyEntryStep loc metric acc e = Except.ok r)
    (hp : bucketHasH acc k m) : bucketHasH r k m := by
  obtain ⟨s, v, hd, hv, rfl⟩ := hourlyEntryStep_ok h
  obtain ⟨b, hb, hbm⟩ := hp
  by_cases hk : k = hourKey loc s
  · subst hk
    refine ⟨_, lookupA_upsert_self _ _ _, ?_⟩
    have hb0 : lookupD acc (hourKey loc s) [] = b := by simp [lookupD, hb]
    rw [hb0]
    exact lookupA_upsert_isSome _ _ _ _ (lookupA_upsert_isSome _ _ _ _ hbm)
  · exact ⟨b, by rw [lookupA_upsert_ne _ _ _ _ hk]; exact hb, hbm⟩

theorem hourlyEntryStep_self {loc : LocOracle} {metric : String}
    {acc : List (String × Jobj)} {e : Jobj} {r : List (String × Jobj)} {s : String}
    (hd : lookupA e "date" = some (Val.str s))
    (h : hourlyEntryStep loc metric acc e = Except.ok r) :
    bucketHasH r (hourKey loc s) metric := by
  obtain ⟨s', v, hd', hv, rfl⟩ := hourlyEntryStep_ok h
  rw [hd] at hd'
  have hss : s = s' := by
    injection hd' with hd''
    injection hd''
  subst hss
  refine ⟨_, lookupA_upsert_self _ _ _, ?_⟩
  rw [lookupA_upsert_self]
  rfl

theorem hourlyMetricStep_mono {loc : LocOracle}
    {acc : List (String × Jobj)} {me : String × List Jobj} {r : List (String × Jobj)}
    {k : String} {m : String}
    (h : hourlyMetricStep loc acc me = Except.ok r)
    (hp : bucketHasH acc k m) : bucketHasH r k m := by
  unfold hourlyMetricStep at h
  exact exFold_inv me.2 acc r (fun a b r' _ hstep hq => hourlyEntryStep_mono hstep hq)
    h hp

/-- Every well-dated entry of any metric ends up with its metric present in
the bucket at its local date-hour key. -/
theorem reorganiser_par_heure_presence {loc : LocOracle}
    {data : List (String × List Jobj)} {res : List (String × Jobj)}
    {m : String} {es : List Jobj} {e : Jobj} {s : String}
    (h : reorganiser_par_heure loc data = Except.ok res)
    (hmem : (m, es) ∈ data) (he : e ∈ es)
    (hd : lookupA e "date" = some (Val.str s)) :
    bucketHasH res (hourKey loc s) m := by
  unfold reorganiser_par_heure at h
  refine exFold_reach (x := (m, es)) data [] res
    (fun a me r' _ hstep hp => hourlyMetricStep_mono hstep hp)
    (fun a r' hstep => ?_) hmem h
  unfold hourlyMetricStep at hstep
  exact exFold_reach (f := hourlyEntryStep loc m) (x := e) es a r'
    (fun a' b r'' _ hst hp => hourlyEntryStep_mono hst hp)
    (fun a' r'' hst => hourlyEntryStep_self hd hst) he hstep

theorem hourlyDT_step {loc : LocOracle} {metric : String}
    {acc : List (String × Jobj)} {e : Jobj} {r : List (String × Jobj)}
    {L : String → Option String}
    (hm : metric ≠ "datetime")
    (h : hourlyEntryStep loc metric acc e = Except.ok r)
    (hin : hourlyDT L acc) : hourlyDT (lastNormUpd loc L e) r := by
  obtain ⟨s, v, hd, hv, rfl⟩ := hourlyEntryStep_ok h
  intro k b hb
  unfold lastNormUpd
  rw [hd]
  by_cases hk : k = hourKey loc s
  · subst hk
    rw [lookupA_upsert_self] at hb
    injection hb with hb
    subst hb
    rw [lookupA_upsert_ne _ _ _ _ (fun hh => hm hh.symm)]
    rw [lookupA_upsert_self]
    simp
  · rw [lookupA_upsert_ne _ _ _ _ hk] at hb
    have hni : ¬(hourKey loc s = k) := fun hh => hk hh.symm
    show lookupA b "datetime"
      = Option.map Val.str (if hourKey loc s = k then some (replaceZ s) else L k)
    rw [if_neg hni]
    exact hin k b hb

theorem hourlyDT_entries {loc : LocOracle} {metric : String} :
    ∀ (es : List Jobj) (acc r : List (String × Jobj)) (L : String → Option String),
      metric ≠ "datetime" →
      exFold (hourlyEntryStep loc metric) acc es = Except.ok r →
      hourlyDT L acc → hourlyDT (es.foldl (lastNormUpd loc) L) r := by
  intro es
  induction es with
  | nil =>
    intro acc r L _ h hin
    unfold exFold at h
    injection h with h
    simpa using h ▸ hin
  | cons e es ih =>
    intro acc r L hm h hin
    obtain ⟨a, hstep, hrest⟩ := exFold_ok_cons h
    simp only [List.foldl_cons]
    exact ih a r (lastNormUpd loc L e) hm hrest (hourlyDT_step hm hstep hin)

theorem hourlyDT_data {loc : LocOracle} :
    ∀ (data : List (String × List Jobj)) (acc r : List (String × Jobj))
      (L : String → Option String),
      noMetricB data "datetime" = true →
      exFold (hourlyMetricStep loc) acc data = Except.ok r →
      hourlyDT L acc →
      hourlyDT (data.foldl (fun L' me => me.2.foldl (lastNormUpd loc) L') L) r := by
  intro data
  induction data with
  | nil =>
    intro acc r L _ h hin
    unfold exFold at h
    injection h with h
    simpa using h ▸ hin
  | cons me rest ih =>
    intro acc r L hnm h hin
    obtain ⟨a, hstep, hrest⟩ := exFold_ok_cons h
    simp only [List.foldl_cons]
    have hm1 : me.1 ≠ "datetime" := noMetricB_mem hnm (List.mem_cons_self _ _)
    have hnm' : noMetricB rest "datetime" = true := by
      simp only [noMetricB, List.all_cons, Bool.and_eq_true] at hnm
      exact hnm.2
    exact ih a r _ hnm' hrest (hourlyDT_entries me.2 acc a L hm1 hstep hin)

/-- Per existing bucket, the `datetime` field is the normalized timestamp
of the LAST entry seen for that bucket (no metric being named `datetime`). -/
theorem reorganiser_par_heure_datetime {loc : LocOracle}
    {data : List (String × List Jobj)} {res : List (String × Jobj)}
    (hnm : noMetricB data "datetime" = true)
    (h : reorganiser_par_heure loc data = Except.ok res) :
    ∀ k b, lookupA res k = some b →
      lookupA b "datetime" = (lastNorm loc data k).map Val.str := by
  intro k b hb
  unfold reorganiser_par_heure at h
  have := hourlyDT_data data [] res (fun _ => none) hnm h ?base
  · exact this k b hb
  case base =>
    intro k' b' hb'
    simp [lookupA] at hb'

/-- Buckets of the hourly pivot never contain a field absent from the
input's metric names, other than the injected `datetime`. -/
theorem hourlyNoKey_step {loc : LocOracle} {metric : String} {bad : String}
    {acc : List (String × Jobj)} {e : Jobj} {r : List (String × Jobj)}
    (hbad : bad ≠ "datetime") (hm : metric ≠ bad)
    (h : hourlyEntryStep loc metric acc e = Except.ok r)
    (hin : ∀ k b, lookupA acc k = some b → lookupA b bad = none) :
    ∀ k b, lookupA r k = some b → lookupA b bad = none := by
  obtain ⟨s, v, hd, hv, rfl⟩ := hourlyEntryStep_ok h
  intro k b hb
  by_cases hk : k = hourKey loc s
  · subst hk
    rw [lookupA_upsert_self] at hb
    injection hb with hb
    subst hb
    rw [lookupA_upsert_ne _ _ _ _ (fun hh => hm hh.symm)]
    rw [lookupA_upsert_ne _ _ _ _ hbad]
    cases hacc : lookupA acc (hourKey loc s) with
    | none => simp [lookupD, hacc, lookupA]
    | some b' => simpa [lookupD, hacc] using hin _ _ hacc
  · rw [lookupA_upsert_ne _ _ _ _ hk] at hb
    exact hin _ _ hb

/-- If the sentinel is absent from the input metric names, no hourly
bucket contains it. -/
theorem reorganiser_par_heure_noSent {loc : LocOracle}
    {data : List (String × List Jobj)} {res : List (String × Jobj)}
    (hnm : noMetricB data "nbMetrics" = true)
    (h : reorganiser_par_heure loc data = Except.ok res) :
    ∀ k b, lookupA res k = some b → lookupA b "nbMetrics" = none := by
  unfold reorganiser_par_heure at h
  refine exFold_inv
    (P := fun t => ∀ k b, lookupA t k = some b → lookupA b "nbMetrics" = none)
    data [] res (fun a me r' hme hstep hp => ?_) h ?_
  · unfold hourlyMetricStep at hstep
    exact exFold_inv
      (P := fun t => ∀ k b, lookupA t k = some b → lookupA b "nbMetrics" = none)
      me.2 a r'
      (fun a' b r'' _ hst hq =>
        hourlyNoKey_step (by simp) (noMetricB_mem hnm hme) hst hq)
      hstep hp
  · intro k b hb
    simp [lookupA] at hb

/-! ### Six-day fan-out merge lemmas -/

theorem lookupA_eq_none_of_keys {κ β : Type} [DecidableEq κ]
    {m : List (κ × β)} {k : κ}
    (h : ∀ q ∈ m, q.1 ≠ k) : lookupA m k = none := by
  induction m with
  | nil => rfl
  | cons p rest ih =>
    have hp : p.1 ≠ k := h p (List.mem_cons_self _ _)
    obtain ⟨k0, v0⟩ := p
    simp only [lookupA, if_neg (fun hh : k = k0 => hp hh.symm)]
    exact ih (fun q hq => h q (List.mem_cons_of_mem _ hq))

/-- Every metric name of the merged fan-out differs from the sentinel. -/
theorem combineDays_keys {days : List (Option (List (String × List Jobj)))} :
    ∀ q ∈ combineDays days, q.1 ≠ "nbMetrics" := by
  unfold combineDays
  refine foldl_inv
    (P := fun a : List (String × List Jobj) => ∀ q ∈ a, q.1 ≠ "nbMetrics") days []
    (fun a od _ hp => ?_) (fun q hq => by simp at hq)
  cases od with
  | none => exact hp
  | some dayData =>
    refine foldl_inv
      (P := fun a : List (String × List Jobj) => ∀ q ∈ a, q.1 ≠ "nbMetrics") dayData a
      (fun a' md _ hq => ?_) hp
    unfold mergeDayStep
    by_cases hm : md.1 = "nbMetrics"
    · rw [if_pos hm]
      exact hq
    · rw [if_neg hm]
      exact upsertA_keys (p := fun k => k ≠ "nbMetrics") a' md.1 _ hq hm

/-- The merged fan-out never stores the sentinel key. -/
theorem combineDays_noSent (days : List (Option (List (String × List Jobj)))) :
    lookupA (combineDays days) "nbMetrics" = none :=
  lookupA_eq_none_of_keys combineDays_keys

theorem combineDays_noMetricB (days : List (Option (List (String × List Jobj)))) :
    noMetricB (combineDays days) "nbMetrics" = true := by
  simp only [noMetricB, List.all_eq_true, decide_eq_true_eq]
  exact combineDays_keys

theorem mergeDayStep_mono {acc : List (String × List Jobj)}
    {md : String × List Jobj} {m : String} {e : Jobj}
    (hp : e ∈ lookupD acc m []) : e ∈ lookupD (mergeDayStep acc md) m [] := by
  unfold mergeDayStep
  by_cases hs : md.1 = "nbMetrics"
  · rw [if_pos hs]
    exact hp
  · rw [if_neg hs]
    by_cases hm : m = md.1
    · subst hm
      simp only [lookupD, lookupA_upsert_self, Option.getD_some]
      exact List.mem_append_left _ hp
    · simp only [lookupD, lookupA_upsert_ne _ _ _ _ hm]
      exact hp

/-- An entry of a non-sentinel metric of any successfully fetched day is
present in the merged `combined_data` under its metric. -/
theorem combineDays_mem {days : List (Option (List (String × List Jobj)))}
    {i : Nat} {dd : List (String × List Jobj)} {m : String} {es : List Jobj} {e : Jobj}
    (hday : days.get? i = some (some dd))
    (hmem : (m, es) ∈ dd) (hm : m ≠ "nbMetrics") (he : e ∈ es) :
    e ∈ lookupD (combineDays days) m [] := by
  unfold combineDays
  refine foldl_reach (P := fun a => e ∈ lookupD a m []) (x := some dd) days []
    (fun a od _ hp => ?_) (fun a => ?_) (List.get?_mem hday)
  · cases od with
    | none => exact hp
    | some dayData =>
      exact foldl_inv (P := fun a => e ∈ lookupD a m []) dayData a
        (fun a' md _ hq => mergeDayStep_mono hq) hp
  · refine foldl_reach (P := fun a => e ∈ lookupD a m []) (x := (m, es)) dd a
      (fun a' md _ hq => mergeDayStep_mono hq) (fun a' => ?_) hmem
    unfold mergeDayStep
    rw [if_neg hm]
    simp only [lookupD, lookupA_upsert_self, Option.getD_some]
    exact List.mem_append_right _ he

/-! ### Current-conditions reshaper lemmas -/

/-- Inversion of one iteration of the `reorganiser` loop. -/
theorem currentStep_ok {loc : LocOracle} {acc : List (String × Val)}
    {me : String × Jobj} {r : List (String × Val)}
    (h : currentStep loc acc me = Except.ok r) :
    r = acc ∨
      ∃ v acc1, lookupA me.2 "value" = some v ∧ me.1 ≠ "nbMetrics" ∧
        r = upsertA acc1 me.1 v ∧
        (acc1 = acc ∨
          ∃ s, lookupA me.2 "date" = some (Val.str s) ∧
            acc1 = upsertA acc "datetime" (Val.str (entryLocal loc s).isoLocal)) := by
  unfold currentStep at h
  by_cases hnb : me.1 = "nbMetrics"
  · rw [if_pos hnb] at h
    injection h with h
    exact Or.inl h.symm
  · rw [if_neg hnb] at h
    by_cases hat : me.1 = "airTemperature"
    · rw [if_pos hat] at h
      cases hd : lookupA me.2 "date" with
      | none => simp [getField, hd, Except.bind, bind] at h
      | some dv =>
        cases dv with
        | num n => simp [getField, hd, asStr, Except.bind, bind] at h
        | str s =>
          cases hv : lookupA me.2 "value" with
          | none =>
            simp [getField, hd, asStr, hv, Except.bind, bind, pure, Except.pure] at h
          | some v =>
            simp only [getField, hd, hv, asStr, Except.bind, bind, pure,
              Except.pure] at h
            injection h with h
            exact Or.inr ⟨v, _, rfl, hnb, h.symm, Or.inr ⟨s, rfl, rfl⟩⟩
    · rw [if_neg hat] at h
      cases hv : lookupA me.2 "value" with
      | none =>
        simp [getField, hv, Except.bind, bind, pure, Except.pure] at h
      | some v =>
        simp only [getField, hv, Except.bind, bind, pure, Except.pure] at h
        injection h with h
        exact Or.inr ⟨v, acc, rfl, hnb, h.symm, Or.inl rfl⟩

theorem currentStep_noSent {loc : LocOracle} {acc : List (String × Val)}
    {me : String × Jobj} {r : List (String × Val)}
    (h : currentStep loc acc me = Except.ok r)
    (hin : lookupA acc "nbMetrics" = none) : lookupA r "nbMetrics" = none := by
  rcases currentStep_ok h with rfl | ⟨v, acc1, hv, hnb, rfl, hacc1⟩
  · exact hin
  · rw [lookupA_upsert_ne _ _ _ _ (fun hh => hnb hh.symm)]
    rcases hacc1 with rfl | ⟨s, hs, rfl⟩
    · exact hin
    · rw [lookupA_upsert_ne _ _ _ _ (by simp)]
      exact hin

/-- The flat current-conditions result never contains the sentinel. -/
theorem reorganiser_noSent {loc : LocOracle} {data : List (String × Jobj)}
    {res : List (String × Val)}
    (h : reorganiser loc data = Except.ok res) : lookupA res "nbMetrics" = none := by
  unfold reorganiser at h
  exact exFold_inv (P := fun t => lookupA t "nbMetrics" = none) data [] res
    (fun a me r' _ hstep hp => currentStep_noSent hstep hp) h rfl

/-! ### Fetcher helpers and concrete instances -/

theorem lookupA_mem {κ β : Type} [DecidableEq κ] :
    ∀ {m : List (κ × β)} {k : κ} {v : β}, lookupA m k = some v → (k, v) ∈ m := by
  intro m
  induction m with
  | nil =>
    intro k v h
    simp [lookupA] at h
  | cons p rest ih =>
    intro k v h
    obtain ⟨k0, v0⟩ := p
    by_cases hk : k = k0
    · subst hk
      rw [lookupA, if_pos rfl] at h
      injection h with h
      subst h
      exact List.mem_cons_self _ _
    · rw [lookupA, if_neg hk] at h
      exact List.mem_cons_of_mem _ (ih h)

/-- A stale or absent daily cache entry sends the call to the network path. -/
theorem fetch_daily_miss {loc : LocOracle} {today : PDate} {now : Int}
    {net : Option (List (String × List Jobj))} {st : PState}
    (hm : cacheFresh st.cachedDaily st.lastDaily now = false) :
    fetch_daily_forecast_datas loc today now net st = fetchDailyNet loc today now net st := by
  unfold fetch_daily_forecast_datas
  cases hc : st.cachedDaily with
  | none => rfl
  | some c =>
    cases hl : st.lastDaily with
    | none => rfl
    | some t =>
      unfold cacheFresh at hm
      rw [hc, hl] at hm
      have hb : (!c.isEmpty && decide (now - t < DEFAULT_CACHE_TIMEOUT)) = false := hm
      simp [hb]

theorem fetch_hourly_miss {loc : LocOracle} {now : Int}
    {days : List (Option (List (String × List Jobj)))} {st : PState}
    (hm : cacheFresh st.cachedHourly st.lastHourly now = false) :
    fetch_hourly_forecast_datas loc now days st = fetchHourlyNet loc now days st := by
  unfold fetch_hourly_forecast_datas
  cases hc : st.cachedHourly with
  | none => rfl
  | some c =>
    cases hl : st.lastHourly with
    | none => rfl
    | some t =>
      unfold cacheFresh at hm
      rw [hc, hl] at hm
      have hb : (!c.isEmpty && decide (now - t < DEFAULT_CACHE_TIMEOUT)) = false := hm
      simp [hb]

theorem fetch_current_miss {loc : LocOracle} {now : Int}
    {net : Option (List (String × Jobj))} {st : PState}
    (hm : cacheFresh st.cachedCurrent st.lastCurrent now = false) :
    fetch_current_forecast_datas loc now net st = fetchCurrentNet loc now net st := by
  unfold fetch_current_forecast_datas
  cases hc : st.cachedCurrent with
  | none => rfl
  | some c =>
    cases hl : st.lastCurrent with
    | none => rfl
    | some t =>
      unfold cacheFresh at hm
      rw [hc, hl] at hm
      have hb : (!c.isEmpty && decide (now - t < DEFAULT_CACHE_TIMEOUT)) = false := hm
      simp [hb]

/-- Inversion of the hourly network path. -/
theorem fetchHourlyNet_ok {loc : LocOracle} {now : Int}
    {days : List (Option (List (String × List Jobj)))} {st : PState}
    {res : List (String × Jobj)} {used : Bool} {st' : PState}
    (h : fetchHourlyNet loc now days st = Except.ok (res, used, st')) :
    reorganiser_par_heure loc (combineDays days) = Except.ok res ∧ used = true ∧
      st' = { st with lastHourly := some now, cachedHourly := some res } := by
  unfold fetchHourlyNet at h
  cases hp : reorganiser_par_heure loc (combineDays days) with
  | error e =>
    rw [hp] at h
    simp [Except.bind, bind] at h
  | ok data =>
    rw [hp] at h
    simp only [Except.bind, bind, pure, Except.pure] at h
    injection h with h
    have h1 : data = res := congrArg Prod.fst h
    have h2 : true = used := congrArg (fun p => p.2.1) h
    have h3 : ({ st with lastHourly := some now, cachedHourly := some data } : PState)
        = st' := congrArg (fun p => p.2.2) h
    refine ⟨?_, h2.symm, ?_⟩
    · rw [h1]
    · rw [← h3, h1]

/-! ### Abort-on-malformed-record lemmas -/

/-- If some element of the loop makes the body raise from every
accumulator, the whole loop raises. -/
theorem exFold_abort {α β : Type} {f : α → β → Except String α} {x : β} :
    ∀ (l : List β) (acc : α),
      (∀ a, ∃ err, f a x = Except.error err) → x ∈ l →
      ∃ err, exFold f acc l = Except.error err := by
  intro l
  induction l with
  | nil =>
    intro acc _ hx
    simp at hx
  | cons y ys ih =>
    intro acc hest hx
    cases hf : f acc y with
    | error e => exact ⟨e, by unfold exFold; rw [hf]⟩
    | ok a =>
      rcases List.mem_cons.mp hx with hxy | hxys
      · obtain ⟨err, herr⟩ := hest acc
        rw [← hxy, herr] at hf
        simp at hf
      · obtain ⟨err, herr⟩ := ih a hest hxys
        exact ⟨err, by unfold exFold; rw [hf]; exact herr⟩

/-- A record without a string `date` or without `value` makes the daily
entry body raise, whatever has been accumulated. -/
theorem dailyEntryStep_fail {loc : LocOracle} {today : PDate} {metric : String}
    {e : Jobj} (hwf : wfEntryB e = false) :
    ∀ acc, ∃ err, dailyEntryStep loc today metric acc e = Except.error err := by
  intro acc
  cases hd : lookupA e "date" with
  | none =>
    exact ⟨"KeyError: date", by unfold dailyEntryStep; simp [getField, hd, Except.bind, bind]⟩
  | some dv =>
    cases dv with
    | num n =>
      cases hv : lookupA e "value" with
      | none =>
        exact ⟨"KeyError: value",
          by unfold dailyEntryStep; simp [getField, hd, hv, Except.bind, bind]⟩
      | some v =>
        exact ⟨"TypeError: not a str",
          by unfold dailyEntryStep; simp [getField, hd, hv, asStr, Except.bind, bind]⟩
    | str t =>
      cases hv : lookupA e "value" with
      | none =>
        exact ⟨"KeyError: value",
          by unfold dailyEntryStep; simp [getField, hd, hv, Except.bind, bind]⟩
      | some v => simp [wfEntryB, hd, hv] at hwf

/-- Same for the hourly entry body. -/
theorem hourlyEntryStep_fail {loc : LocOracle} {metric : String}
    {e : Jobj} (hwf : wfEntryB e = false) :
    ∀ acc, ∃ err, hourlyEntryStep loc metric acc e = Except.error err := by
  intro acc
  cases hd : lookupA e "date" with
  | none =>
    exact ⟨"KeyError: date", by unfold hourlyEntryStep; simp [getField, hd, Except.bind, bind]⟩
  | some dv =>
    cases dv with
    | num n =>
      cases hv : lookupA e "value" with
      | none =>
        exact ⟨"KeyError: value",
          by unfold hourlyEntryStep; simp [getField, hd, hv, Except.bind, bind]⟩
      | some v =>
        exact ⟨"TypeError: not a str",
          by unfold hourlyEntryStep; simp [getField, hd, hv, asStr, Except.bind, bind]⟩
    | str t =>
      cases hv : lookupA e "value" with
      | none =>
        exact ⟨"KeyError: value",
          by unfold hourlyEntryStep; simp [getField, hd, hv, Except.bind, bind]⟩
      | some v => simp [wfEntryB, hd, hv] at hwf

/-- A malformed current-conditions record of a non-sentinel metric makes
the loop body raise, whatever has been accumulated. -/
theorem currentStep_fail {loc : LocOracle} {me : String × Jobj}
    (hm : me.1 ≠ "nbMetrics") (hwf : wfCurEntryB me.1 me.2 = false) :
    ∀ acc, ∃ err, currentStep loc acc me = Except.error err := by
  intro acc
  unfold currentStep
  rw [if_neg hm]
  by_cases hat : me.1 = "airTemperature"
  · rw [if_pos hat]
    cases hd : lookupA me.2 "date" with
    | none =>
      exact ⟨"KeyError: date",
        by simp [getField, hd, Except.bind, bind]⟩
    | some dv =>
      cases dv with
      | num n =>
        exact ⟨"TypeError: not a str",
          by simp [getField, hd, asStr, Except.bind, bind]⟩
      | str t =>
        cases hv : lookupA me.2 "value" with
        | none =>
          exact ⟨"KeyError: value",
            by simp [getField, hd, hv, asStr, Except.bind, bind, pure, Except.pure]⟩
        | some v => simp [wfCurEntryB, hd, hv] at hwf
  · rw [if_neg hat]
    cases hv : lookupA me.2 "value" with
    | none =>
      exact ⟨"KeyError: value",
        by simp [getField, hv, Except.bind, bind, pure, Except.pure]⟩
    | some v => simp [wfCurEntryB, hv, hat] at hwf

/-- The whole daily metric loop raises once it holds a malformed record of
a non-sentinel metric. -/
theorem dailyMetricStep_fail {loc : LocOracle} {today : PDate}
    {me : String × List Jobj} {e : Jobj}
    (hm : me.1 ≠ "nbMetrics") (he : e ∈ me.2) (hwf : wfEntryB e = false) :
    ∀ acc, ∃ err, dailyMetricStep loc today acc me = Except.error err := by
  intro acc
  unfold dailyMetricStep
  rw [if_neg hm]
  exact exFold_abort (f := dailyEntryStep loc today me.1) (x := e) me.2 acc
    (fun a => dailyEntryStep_fail hwf a) he

/-- Same for the hourly metric loop (no sentinel skip in the pivot). -/
theorem hourlyMetricStep_fail {loc : LocOracle}
    {me : String × List Jobj} {e : Jobj}
    (he : e ∈ me.2) (hwf : wfEntryB e = false) :
    ∀ acc, ∃ err, hourlyMetricStep loc acc me = Except.error err := by
  intro acc
  unfold hourlyMetricStep
  exact exFold_abort (f := hourlyEntryStep loc me.1) (x := e) me.2 acc
    (fun a => hourlyEntryStep_fail hwf a) he

/-! ### Claim theorems -/

/-- C9: the condition mapper is a pure static lookup; code `1` maps to the
sunny label, code `101` to the clear-night label, and every numeric code
absent from `CONDITION_MAP` is passed through unchanged by the
current-conditions `condition` accessor. -/
theorem c9_condition_map :
    lookupA CONDITION_MAP 1 = some "sunny" ∧
    lookupA CONDITION_MAP 101 = some "clear-night" ∧
    ∀ (n : Int) (cur : List (String × Val)),
      lookupA CONDITION_MAP n = none →
      lookupA cur "weatherCode" = some (Val.num n) →
      condition cur = some (Val.num n) := by
  refine ⟨by decide, by decide, ?_⟩
  intro n cur hn hcur
  simp [condition, hcur, hn]

/-- Witness for C9 at the unmapped code 999. -/
theorem c9_witness :
    lookupA CONDITION_MAP 999 = none ∧
    condition [("weatherCode", Val.num 999)] = some (Val.num 999) :=
  ⟨by decide,
   c9_condition_map.2.2 999 [("weatherCode", Val.num 999)] (by decide) (by decide)⟩

/-- C8: the sentinel metric `nbMetrics` never appears as a key or bucket
field of any reshaped output: not in the daily pivot's buckets, not in the
merged hourly fan-out nor the pivoted hourly buckets, and not in the flat
current-conditions result. -/
theorem c8_sentinel_exclusion :
    (∀ (loc : LocOracle) (today : PDate) (data : List (String × List Jobj))
      (res : List (Int × Jobj)),
      reorganiser_par_date loc today data = Except.ok res →
      ∀ (k : Int) (b : Jobj), lookupA res k = some b →
        lookupA b "nbMetrics" = none) ∧
    (∀ (days : List (Option (List (String × List Jobj)))),
      lookupA (combineDays days) "nbMetrics" = none) ∧
    (∀ (loc : LocOracle) (days : List (Option (List (String × List Jobj))))
      (res : List (String × Jobj)),
      reorganiser_par_heure loc (combineDays days) = Except.ok res →
      ∀ (k : String) (b : Jobj), lookupA res k = some b →
        lookupA b "nbMetrics" = none) ∧
    (∀ (loc : LocOracle) (data : List (String × Jobj)) (res : List (String × Val)),
      reorganiser loc data = Except.ok res → lookupA res "nbMetrics" = none) :=
  ⟨fun _ _ _ _ h k b hb => reorganiser_par_date_noSent h k b hb,
   fun days => combineDays_noSent days,
   fun _ days _ h k b hb =>
     reorganiser_par_heure_noSent (combineDays_noMetricB days) h k b hb,
   fun _ _ _ h => reorganiser_noSent h⟩

/-- Witness for C8 on an input that does carry `nbMetrics`. -/
theorem c8_witness :
    lookupA [("date", Val.str "2025-01-01"), ("maxAirTemperature", Val.num 10)]
      "nbMetrics" = none ∧
    lookupA (combineDays [some [("nbMetrics", []), ("airTemperature", [])]])
      "nbMetrics" = none ∧
    lookupA [("windSpeedAt2m", Val.num 3)] "nbMetrics" = none :=
  ⟨c8_sentinel_exclusion.1 locJan ⟨2025, 1, 1⟩
      (("nbMetrics", []) :: exDaily)
      [(1, [("date", Val.str "2025-01-01"), ("maxAirTemperature", Val.num 10)])]
      (by decide) 1 _ (by decide),
   c8_sentinel_exclusion.2.1 [some [("nbMetrics", []), ("airTemperature", [])]],
   c8_sentinel_exclusion.2.2.2 locJan
      [("nbMetrics", [("value", Val.num 5)]), ("windSpeedAt2m", [("value", Val.num 3)])]
      [("windSpeedAt2m", Val.num 3)] (by decide)⟩

/-- C5 (amended): the reshapers are NOT total on partially malformed
input: a record of a non-sentinel metric lacking a string `date` or
lacking `value` raises an uncaught `KeyError` (or `TypeError` for a
non-string `date`) that aborts the WHOLE reshape pass — no result is
produced and none of the other records is reshaped.  (For the hourly
pivot itself the sentinel is not skipped; for the current-conditions
reshaper only `airTemperature` reads `date`.) -/
theorem c5_malformed_aborts :
    (∀ (loc : LocOracle) (today : PDate) (data : List (String × List Jobj))
      (m : String) (es : List Jobj) (e : Jobj),
      (m, es) ∈ data → m ≠ "nbMetrics" → e ∈ es → wfEntryB e = false →
      (reorganiser_par_date loc today data).isOk = false) ∧
    (∀ (loc : LocOracle) (data : List (String × List Jobj))
      (m : String) (es : List Jobj) (e : Jobj),
      (m, es) ∈ data → e ∈ es → wfEntryB e = false →
      (reorganiser_par_heure loc data).isOk = false) ∧
    (∀ (loc : LocOracle) (data : List (String × Jobj)) (me : String × Jobj),
      me ∈ data → me.1 ≠ "nbMetrics" → wfCurEntryB me.1 me.2 = false →
      (reorganiser loc data).isOk = false) := by
  refine ⟨?_, ?_, ?_⟩
  · intro loc today data m es e hmem hm he hwf
    obtain ⟨err, herr⟩ := exFold_abort (f := dailyMetricStep loc today)
      (x := (m, es)) data []
      (fun a => dailyMetricStep_fail hm he hwf a) hmem
    show (exFold (dailyMetricStep loc today) [] data).isOk = false
    rw [herr]
    rfl
  · intro loc data m es e hmem he hwf
    obtain ⟨err, herr⟩ := exFold_abort (f := hourlyMetricStep loc)
      (x := (m, es)) data []
      (fun a => hourlyMetricStep_fail he hwf a) hmem
    show (exFold (hourlyMetricStep loc) [] data).isOk = false
    rw [herr]
    rfl
  · intro loc data me hmem hm hwf
    obtain ⟨err, herr⟩ := exFold_abort (f := currentStep loc)
      (x := me) data []
      (fun a => currentStep_fail hm hwf a) hmem
    show (exFold (currentStep loc) [] data).isOk = false
    rw [herr]
    rfl

/-- Witness for C5: a record missing `value` aborts the daily and hourly
passes; an `airTemperature` record missing `date` aborts the current
pass. -/
theorem c5_witness :
    (reorganiser_par_date locJan ⟨2025, 1, 1⟩ exMalformed).isOk = false ∧
    (reorganiser_par_heure locJan exMalformed).isOk = false ∧
    (reorganiser locJan [("airTemperature", [("value", Val.num 4)])]).isOk = false :=
  ⟨c5_malformed_aborts.1 locJan ⟨2025, 1, 1⟩ exMalformed
     "relativeHumidity" [[("date", Val.str "2025-01-01T00:00:00Z")]]
     [("date", Val.str "2025-01-01T00:00:00Z")]
     (by decide) (by decide) (by decide) (by decide),
   c5_malformed_aborts.2.1 locJan exMalformed
     "relativeHumidity" [[("date", Val.str "2025-01-01T00:00:00Z")]]
     [("date", Val.str "2025-01-01T00:00:00Z")]
     (by decide) (by decide) (by decide),
   c5_malformed_aborts.2.2 locJan
     [("airTemperature", [("value", Val.num 4)])]
     ("airTemperature", [("value", Val.num 4)])
     (by decide) (by decide) (by decide)⟩

/-- Counterexample for C5 as stated: a single record lacking `value`
aborts the WHOLE reshape pass with a `KeyError`; the well-formed first
metric is not reshaped either. -/
theorem c5_counterexample :
    reorganiser_par_date locJan ⟨2025, 1, 1⟩ exMalformed
      = Except.error "KeyError: value" := by
  decide

/-- C3 (amended): for every metric other than the sentinel — provided no
metric is literally named `date` (such a metric overwrites the injected
`date` field, see the counterexample) and the oracle's local dates are
canonical — each entry is placed under its day offset with the bucket's
`date` field equal to the local date's ISO string exactly when the offset
is positive, and no bucket with offset `≤ 0` ever appears; moreover the
spec's concrete example pivots as stated. -/
theorem c3_daily_pivot :
    (∀ (loc : LocOracle) (today : PDate) (data : List (String × List Jobj))
      (res : List (Int × Jobj)),
      noMetricB data "date" = true →
      datesCanonB loc data = true →
      reorganiser_par_date loc today data = Except.ok res →
      (∀ (m : String) (es : List Jobj) (e : Jobj) (s : String),
        (m, es) ∈ data → m ≠ "nbMetrics" → e ∈ es →
        lookupA e "date" = some (Val.str s) → 0 < dayIdx loc today s →
        ∃ b, lookupA res (dayIdx loc today s) = some b ∧
          (lookupA b m).isSome = true ∧
          lookupA b "date" = some (Val.str (entryLocal loc s).date.isoformat)) ∧
      (∀ (k : Int) (b : Jobj), lookupA res k = some b → 0 < k)) ∧
    reorganiser_par_date locJan ⟨2025, 1, 1⟩ exDaily
      = Except.ok
          [(1, [("date", Val.str "2025-01-01"), ("maxAirTemperature", Val.num 10)])] := by
  constructor
  · intro loc today data res hnd hcan h
    have hinv := reorganiser_par_date_dateInv hnd hcan h
    constructor
    · intro m es e s hmem hm he hd hidx
      obtain ⟨b, hb, hbm⟩ := reorganiser_par_date_presence h hmem hm he hd hidx
      refine ⟨b, hb, hbm, ?_⟩
      obtain ⟨hpos, hdate⟩ := hinv _ _ hb
      rw [hdate]
      have hc := datesCanonB_mem hcan hmem he hd
      simp only [canonB, decide_eq_true_eq] at hc
      have hzz : dayIdx loc today s
          = (toDay (entryLocal loc s).date - toDay today) + 1 := rfl
      have hX : toDay today + (dayIdx loc today s - 1)
          = toDay (entryLocal loc s).date := by omega
      rw [hX, hc]
    · intro k b hb
      exact (hinv k b hb).1
  · decide

/-- Witness for C3 on the spec's own example. -/
theorem c3_witness :
    0 < dayIdx locJan ⟨2025, 1, 1⟩ "2025-01-01T00:00:00Z" ∧
    ∃ b, lookupA
        [(1, [("date", Val.str "2025-01-01"), ("maxAirTemperature", Val.num 10)])]
        (dayIdx locJan ⟨2025, 1, 1⟩ "2025-01-01T00:00:00Z") = some b ∧
      (lookupA b "maxAirTemperature").isSome = true ∧
      lookupA b "date" = some
        (Val.str (entryLocal locJan "2025-01-01T00:00:00Z").date.isoformat) :=
  ⟨by decide,
   (c3_daily_pivot.1 locJan ⟨2025, 1, 1⟩ exDaily
      [(1, [("date", Val.str "2025-01-01"), ("maxAirTemperature", Val.num 10)])]
      (by decide) (by decide) c3_daily_pivot.2).1
     "maxAirTemperature"
     [[("date", Val.str "2025-01-01T00:00:00Z"), ("value", Val.num 10)]]
     [("date", Val.str "2025-01-01T00:00:00Z"), ("value", Val.num 10)]
     "2025-01-01T00:00:00Z"
     (by decide) (by decide) (by decide) (by decide) (by decide)⟩

/-- Counterexample for C3 as stated: the metric named `date` (which is not
the sentinel) has a positive day offset, yet the bucket's `date` field
carries the metric's value `99`, not the local date's ISO string. -/
theorem c3_counterexample :
    dayIdx locJan ⟨2025, 1, 1⟩ "2025-01-01T00:00:00Z" = 1 ∧
    reorganiser_par_date locJan ⟨2025, 1, 1⟩ exDateMetric
      = Except.ok [(1, [("date", Val.num 99)])] ∧
    lookupA [("date", Val.num 99)] "date"
      ≠ some (Val.str (entryLocal locJan "2025-01-01T00:00:00Z").date.isoformat) := by
  decide

/-- C10 (amended): provided no metric is literally named `date` (see the
counterexample) and local dates are canonical, every key `k` of the daily
pivot is an integer `≥ 1` and the bucket's `date` field is the ISO string
of `today + (k - 1)` days — determined by the bucket's own key. -/
theorem c10_key_determines_date :
    ∀ (loc : LocOracle) (today : PDate) (data : List (String × List Jobj))
      (res : List (Int × Jobj)),
      noMetricB data "date" = true →
      datesCanonB loc data = true →
      reorganiser_par_date loc today data = Except.ok res →
      ∀ (k : Int) (b : Jobj), lookupA res k = some b →
        1 ≤ k ∧ lookupA b "date"
          = some (Val.str (PDate.isoformat (addDays today (k - 1)))) := by
  intro loc today data res hnd hcan h k b hb
  obtain ⟨hpos, hdate⟩ := reorganiser_par_date_dateInv hnd hcan h k b hb
  exact ⟨by omega, hdate⟩

/-- Witness for C10 on the concrete daily example. -/
theorem c10_witness :
    1 ≤ (1 : Int) ∧
    lookupA [("date", Val.str "2025-01-01"), ("maxAirTemperature", Val.num 10)]
        "date"
      = some (Val.str (PDate.isoformat (addDays ⟨2025, 1, 1⟩ (1 - 1)))) :=
  c10_key_determines_date locJan ⟨2025, 1, 1⟩ exDaily
    [(1, [("date", Val.str "2025-01-01"), ("maxAirTemperature", Val.num 10)])]
    (by decide) (by decide) (by decide) 1 _ (by decide)

/-- Counterexample for C10 as stated: with a metric named `date`, bucket 1
exists but its `date` field is `99`, not the ISO string determined by the
key. -/
theorem c10_counterexample :
    reorganiser_par_date locJan ⟨2025, 1, 1⟩ exDateMetric
      = Except.ok [(1, [("date", Val.num 99)])] ∧
    lookupA [("date", Val.num 99)] "date"
      ≠ some (Val.str (PDate.isoformat (addDays ⟨2025, 1, 1⟩ (1 - 1)))) := by
  decide

/-- C4 (amended): in the hourly pivot (no metric being literally named
`datetime`), every bucket's injected `datetime` field equals the
Z-normalized timestamp string of the LAST entry seen for that bucket in
iteration order — not the first (see the counterexample). -/
theorem c4_datetime_last_write :
    ∀ (loc : LocOracle) (data : List (String × List Jobj))
      (res : List (String × Jobj)),
      noMetricB data "datetime" = true →
      reorganiser_par_heure loc data = Except.ok res →
      ∀ (k : String) (b : Jobj), lookupA res k = some b →
        lookupA b "datetime" = (lastNorm loc data k).map Val.str :=
  fun _ _ _ hnm h k b hb => reorganiser_par_heure_datetime hnm h k b hb

/-- Witness for C4 on the two-metric shared-hour example. -/
theorem c4_witness :
    lookupA
        [("datetime", Val.str "2025-01-01T10:30:00+00:00"),
         ("airTemperature", Val.num 1), ("windSpeedAt2m", Val.num 2)]
        "datetime"
      = (lastNorm locJan exHourly "2025-01-01-11").map Val.str :=
  c4_datetime_last_write locJan exHourly
    [("2025-01-01-11",
      [("datetime", Val.str "2025-01-01T10:30:00+00:00"),
       ("airTemperature", Val.num 1), ("windSpeedAt2m", Val.num 2)])]
    (by decide) (by decide) "2025-01-01-11" _ (by decide)

/-- Counterexample for C4 as stated: two entries of different metrics fall
in the same Paris hour; the bucket's `datetime` is the SECOND (last)
entry's normalized timestamp, not the first's. -/
theorem c4_counterexample :
    hourKey locJan "2025-01-01T10:00:00Z" = hourKey locJan "2025-01-01T10:30:00Z" ∧
    reorganiser_par_heure locJan exHourly
      = Except.ok
          [("2025-01-01-11",
            [("datetime", Val.str "2025-01-01T10:30:00+00:00"),
             ("airTemperature", Val.num 1), ("windSpeedAt2m", Val.num 2)])] ∧
    lookupA
        [("datetime", Val.str "2025-01-01T10:30:00+00:00"),
         ("airTemperature", Val.num 1), ("windSpeedAt2m", Val.num 2)]
        "datetime"
      ≠ some (Val.str (replaceZ "2025-01-01T10:00:00Z")) := by
  decide

/-- C7: two entries of different metrics whose timestamps fall in the same
local date-hour both end up, with their metrics present, in the single
bucket under that composite key; neither erases the other. -/
theorem c7_bucket_merge :
    ∀ (loc : LocOracle) (data : List (String × List Jobj))
      (res : List (String × Jobj)) (m1 m2 : String) (es1 es2 : List Jobj)
      (e1 e2 : Jobj) (s1 s2 : String),
      m1 ≠ m2 →
      (m1, es1) ∈ data → (m2, es2) ∈ data → e1 ∈ es1 → e2 ∈ es2 →
      lookupA e1 "date" = some (Val.str s1) →
      lookupA e2 "date" = some (Val.str s2) →
      hourKey loc s1 = hourKey loc s2 →
      reorganiser_par_heure loc data = Except.ok res →
      ∃ b, lookupA res (hourKey loc s1) = some b ∧
        (lookupA b m1).isSome = true ∧ (lookupA b m2).isSome = true := by
  intro loc data res m1 m2 es1 es2 e1 e2 s1 s2 hne hmem1 hmem2 he1 he2 hd1 hd2 hkeq h
  obtain ⟨b1, hb1, hm1⟩ := reorganiser_par_heure_presence h hmem1 he1 hd1
  obtain ⟨b2, hb2, hm2⟩ := reorganiser_par_heure_presence h hmem2 he2 hd2
  rw [← hkeq, hb1] at hb2
  injection hb2 with hb2
  exact ⟨b1, hb1, hm1, hb2 ▸ hm2⟩

/-- Witness for C7 on the two-metric shared-hour example. -/
theorem c7_witness :
    ∃ b, lookupA
        [("2025-01-01-11",
          [("datetime", Val.str "2025-01-01T10:30:00+00:00"),
           ("airTemperature", Val.num 1), ("windSpeedAt2m", Val.num 2)])]
        (hourKey locJan "2025-01-01T10:00:00Z") = some b ∧
      (lookupA b "airTemperature").isSome = true ∧
      (lookupA b "windSpeedAt2m").isSome = true :=
  c7_bucket_merge locJan exHourly
    [("2025-01-01-11",
      [("datetime", Val.str "2025-01-01T10:30:00+00:00"),
       ("airTemperature", Val.num 1), ("windSpeedAt2m", Val.num 2)])]
    "airTemperature" "windSpeedAt2m"
    [[("date", Val.str "2025-01-01T10:00:00Z"), ("value", Val.num 1)]]
    [[("date", Val.str "2025-01-01T10:30:00Z"), ("value", Val.num 2)]]
    [("date", Val.str "2025-01-01T10:00:00Z"), ("value", Val.num 1)]
    [("date", Val.str "2025-01-01T10:30:00Z"), ("value", Val.num 2)]
    "2025-01-01T10:00:00Z" "2025-01-01T10:30:00Z"
    (by decide) (by decide) (by decide) (by decide) (by decide)
    (by decide) (by decide) (by decide) (by decide)

/-- C6: in the six-day hourly fan-out, failed days are skipped without
aborting the rest: for every failure pattern, every entry of every
successfully fetched day's non-sentinel metrics is merged into
`combined_data` (by per-metric list concatenation) and its metric is
present in the bucket of the final pivoted result at the entry's
date-hour key. -/
theorem c6_partial_day_failure :
    ∀ (loc : LocOracle) (now : Int)
      (days : List (Option (List (String × List Jobj)))) (st : PState)
      (res : List (String × Jobj)) (used : Bool) (st2 : PState)
      (i : Nat) (dd : List (String × List Jobj)) (m : String)
      (es : List Jobj) (e : Jobj) (s : String),
      days.length = 6 →
      cacheFresh st.cachedHourly st.lastHourly now = false →
      fetch_hourly_forecast_datas loc now days st = Except.ok (res, used, st2) →
      days.get? i = some (some dd) →
      (m, es) ∈ dd → m ≠ "nbMetrics" → e ∈ es →
      lookupA e "date" = some (Val.str s) →
      e ∈ lookupD (combineDays days) m [] ∧
      ∃ b, lookupA res (hourKey loc s) = some b ∧
        (lookupA b m).isSome = true := by
  intro loc now days st res used st2 i dd m es e s hlen hfresh hfetch hday hmem hm he hd
  rw [fetch_hourly_miss hfresh] at hfetch
  obtain ⟨hpivot, -, -⟩ := fetchHourlyNet_ok hfetch
  have hin := combineDays_mem hday hmem hm he
  refine ⟨hin, ?_⟩
  cases hcomb : lookupA (combineDays days) m with
  | none =>
    rw [lookupD, hcomb] at hin
    simp at hin
  | some esc =>
    have hmem2 : (m, esc) ∈ combineDays days := lookupA_mem hcomb
    have he2 : e ∈ esc := by
      rw [lookupD, hcomb] at hin
      simpa using hin
    exact reorganiser_par_heure_presence hpivot hmem2 he2 hd

/-- Witness for C6: only day 4 of 6 succeeds; its entry survives the merge
and the pivot. -/
theorem c6_witness :
    [("date", Val.str "2025-01-01T10:00:00Z"), ("value", Val.num 1)]
      ∈ lookupD (combineDays exDays) "airTemperature" [] ∧
    ∃ b, lookupA
        [("2025-01-01-11",
          [("datetime", Val.str "2025-01-01T10:00:00+00:00"),
           ("airTemperature", Val.num 1)])]
        (hourKey locJan "2025-01-01T10:00:00Z") = some b ∧
      (lookupA b "airTemperature").isSome = true :=
  c6_partial_day_failure locJan 0 exDays stEmpty
    [("2025-01-01-11",
      [("datetime", Val.str "2025-01-01T10:00:00+00:00"),
       ("airTemperature", Val.num 1)])]
    true
    ⟨none, none, some 0,
     some [("2025-01-01-11",
       [("datetime", Val.str "2025-01-01T10:00:00+00:00"),
        ("airTemperature", Val.num 1)])], none, none⟩
    3 exDay "airTemperature"
    [[("date", Val.str "2025-01-01T10:00:00Z"), ("value", Val.num 1)]]
    [("date", Val.str "2025-01-01T10:00:00Z"), ("value", Val.num 1)]
    "2025-01-01T10:00:00Z"
    (by decide) (by decide) (by decide) (by decide) (by decide) (by decide)
    (by decide) (by decide)

/-- C1 (amended): after a cache miss, a failed fetch returns an empty
mapping; for the daily and current kinds the cache entry (payload and
timestamp) is left exactly as it was, but for the hourly kind all six
per-day fetches failing OVERWRITES the entry: the cached payload becomes
the empty mapping and `fetchedAt` becomes the current time (see the
counterexample). -/
theorem c1_failure_state :
    (∀ (loc : LocOracle) (today : PDate) (now : Int) (st : PState),
      cacheFresh st.cachedDaily st.lastDaily now = false →
      fetch_daily_forecast_datas loc today now none st
        = Except.ok ([], true, st)) ∧
    (∀ (loc : LocOracle) (now : Int) (st : PState),
      cacheFresh st.cachedCurrent st.lastCurrent now = false →
      fetch_current_forecast_datas loc now none st
        = Except.ok ([], true, st)) ∧
    (∀ (loc : LocOracle) (now : Int) (st : PState),
      cacheFresh st.cachedHourly st.lastHourly now = false →
      fetch_hourly_forecast_datas loc now (List.replicate 6 none) st
        = Except.ok ([], true,
            { st with lastHourly := some now, cachedHourly := some [] })) := by
  refine ⟨?_, ?_, ?_⟩
  · intro loc today now st hm
    rw [fetch_daily_miss hm]
    rfl
  · intro loc now st hm
    rw [fetch_current_miss hm]
    rfl
  · intro loc now st hm
    rw [fetch_hourly_miss hm]
    rfl

/-- Witness for C1: a first-ever fetch failing (daily, current), and six
failing hourly fetches on a stale entry. -/
theorem c1_witness :
    fetch_daily_forecast_datas loc0 ⟨2025, 1, 1⟩ 5 none stEmpty
      = Except.ok ([], true, stEmpty) ∧
    fetch_current_forecast_datas loc0 5 none stEmpty
      = Except.ok ([], true, stEmpty) ∧
    fetch_hourly_forecast_datas loc0 2000 (List.replicate 6 none) stStaleHourly
      = Except.ok ([], true,
          { stStaleHourly with lastHourly := some 2000, cachedHourly := some [] }) :=
  ⟨c1_failure_state.1 loc0 ⟨2025, 1, 1⟩ 5 stEmpty (by decide),
   c1_failure_state.2.1 loc0 5 stEmpty (by decide),
   c1_failure_state.2.2 loc0 2000 stStaleHourly (by decide)⟩

/-- Counterexample for C1 as stated: all six hourly fetches fail after the
TTL expired, the call returns an empty mapping — but the cache entry is
NOT left as it was: the stale payload is replaced by the empty mapping and
`fetchedAt` by the current time. -/
theorem c1_counterexample :
    DEFAULT_CACHE_TIMEOUT ≤ 2000 - 0 ∧
    fetch_hourly_forecast_datas loc0 2000 (List.replicate 6 none) stStaleHourly
      = Except.ok ([], true,
          { stStaleHourly with lastHourly := some 2000, cachedHourly := some [] }) ∧
    ({ stStaleHourly with lastHourly := some 2000, cachedHourly := some [] } : PState)
      ≠ stStaleHourly := by
  decide

/-- C2 (amended): within the TTL a NON-EMPTY cached payload is returned
unchanged with no network access, for all three kinds; but a cached EMPTY
payload fails Python's truthiness test, so the second call fetches from
the network again (see the counterexample). -/
theorem c2_cache_hit :
    (∀ (loc : LocOracle) (today : PDate) (now t : Int)
      (net : Option (List (String × List Jobj))) (st : PState)
      (c : List (Int × Jobj)),
      st.cachedDaily = some c → c ≠ [] → st.lastDaily = some t →
      now - t < DEFAULT_CACHE_TIMEOUT →
      fetch_daily_forecast_datas loc today now net st = Except.ok (c, false, st)) ∧
    (∀ (loc : LocOracle) (now t : Int)
      (days : List (Option (List (String × List Jobj)))) (st : PState)
      (c : List (String × Jobj)),
      st.cachedHourly = some c → c ≠ [] → st.lastHourly = some t →
      now - t < DEFAULT_CACHE_TIMEOUT →
      fetch_hourly_forecast_datas loc now days st = Except.ok (c, false, st)) ∧
    (∀ (loc : LocOracle) (now t : Int) (net : Option (List (String × Jobj)))
      (st : PState) (c : List (String × Val)),
      st.cachedCurrent = some c → c ≠ [] → st.lastCurrent = some t →
      now - t < DEFAULT_CACHE_TIMEOUT →
      fetch_current_forecast_datas loc now net st = Except.ok (c, false, st)) ∧
    (∀ (loc : LocOracle) (today : PDate) (now : Int)
      (net : Option (List (String × List Jobj))) (st : PState)
      (r : List (Int × Jobj)) (used : Bool) (st2 : PState),
      st.cachedDaily = some [] →
      fetch_daily_forecast_datas loc today now net st = Except.ok (r, used, st2) →
      used = true) := by
  refine ⟨?_, ?_, ?_, ?_⟩
  · intro loc today now t net st c hc hne hl hlt
    unfold fetch_daily_forecast_datas
    rw [hc, hl]
    have hce : c.isEmpty = false := by
      cases c with
      | nil => exact absurd rfl hne
      | cons a l => rfl
    simp [hce, hlt]
  · intro loc now t days st c hc hne hl hlt
    unfold fetch_hourly_forecast_datas
    rw [hc, hl]
    have hce : c.isEmpty = false := by
      cases c with
      | nil => exact absurd rfl hne
      | cons a l => rfl
    simp [hce, hlt]
  · intro loc now t net st c hc hne hl hlt
    unfold fetch_current_forecast_datas
    rw [hc, hl]
    have hce : c.isEmpty = false := by
      cases c with
      | nil => exact absurd rfl hne
      | cons a l => rfl
    simp [hce, hlt]
  · intro loc today now net st r used st2 hc h
    have hm : cacheFresh st.cachedDaily st.lastDaily now = false := by
      unfold cacheFresh
      rw [hc]
      cases st.lastDaily <;> rfl
    rw [fetch_daily_miss hm] at h
    cases net with
    | none =>
      simp only [fetchDailyNet] at h
      injection h with h
      exact (congrArg (fun p => p.2.1) h).symm
    | some raw =>
      cases hp : reorganiser_par_date loc today raw with
      | error err =>
        simp [fetchDailyNet, hp, Except.bind, bind] at h
      | ok data =>
        simp only [fetchDailyNet, hp, Except.bind, bind, pure, Except.pure] at h
        injection h with h
        exact (congrArg (fun p => p.2.1) h).symm

/-- Witness for C2: a non-empty daily entry fetched at time 0 is returned
unchanged at time 1 with no network access. -/
theorem c2_witness :
    fetch_daily_forecast_datas loc0 ⟨2025, 1, 1⟩ 1 none
        ⟨some 0, some [(1, [("date", Val.str "2025-01-01")])], none, none, none, none⟩
      = Except.ok ([(1, [("date", Val.str "2025-01-01")])], false,
          ⟨some 0, some [(1, [("date", Val.str "2025-01-01")])], none, none, none, none⟩) :=
  c2_cache_hit.1 loc0 ⟨2025, 1, 1⟩ 1 0 none
    ⟨some 0, some [(1, [("date", Val.str "2025-01-01")])], none, none, none, none⟩
    [(1, [("date", Val.str "2025-01-01")])]
    (by decide) (by decide) (by decide) (by decide)

/-- Counterexample for C2 as stated ("including an empty payload"): the
first call caches an EMPTY payload at time 0; the second call at time 1 —
well within the TTL — hits the network again (`used = true`). -/
theorem c2_counterexample :
    fetch_daily_forecast_datas loc0 ⟨2025, 1, 1⟩ 0 (some [("nbMetrics", [])]) stEmpty
      = Except.ok ([], true, stCachedEmptyDaily) ∧
    (1 : Int) - 0 < DEFAULT_CACHE_TIMEOUT ∧
    fetch_daily_forecast_datas loc0 ⟨2025, 1, 1⟩ 1 (some [("nbMetrics", [])])
        stCachedEmptyDaily
      = Except.ok ([], true, ⟨some 1, some [], none, none, none, none⟩) := by
  decide

end Pleinchamp
